import Mathlib

/-!
Shallow embedding of the expense-tracker repository (Svelte + Appwrite SDK).

The application code is a set of thin wrappers around remote SDK calls:
* `src/lib/stores/expenses.ts` — `fetchExpenses`, `addExpense`,
  `updateExpense`, `deleteExpense` operating on the shared `expenses` store;
* `src/lib/stores/auth.ts` (and the draft `unnamed/part_002`) — `initAuth`,
  `login`, `logout` operating on the shared `user` store;
* `src/routes/auth/+page.svelte` — the auth screen's `handleSubmit`;
* `src/routes/+page.svelte` / `+layout.svelte` — `calculateStats`.

Modelling conventions:
* JS numbers (amounts, produced by `parseFloat`) are embedded as `ℚ`;
* instants (ISO-8601 timestamp strings, compared chronologically) are
  embedded as `Int` epoch values; `new Date(s).toISOString()` on a valid
  instant re-renders the same instant, so the normalisation
  `isoNormalize` is the identity on instants;
* each async operation is embedded as a pure function taking the outcome
  of its single remote SDK call as an explicit argument (`none` / a `Bool`
  flag standing for a rejected promise); the `try/catch` structure then
  determines the resulting shared state, what is logged, and whether the
  error is rethrown;
* the payload object built by `updateExpense` is embedded as an
  association list of (key, value) pairs so that a key that is present
  with JS value `undefined` is distinguishable from an absent key;
  later bindings override earlier ones, matching JS object-literal
  semantics, so lookups take the last binding.
-/

/-- A value stored under a key of a JS object payload. `undef` is the JS
`undefined` value (present key, undefined value). -/
inductive Val where
  | str (s : String)
  | num (q : ℚ)
  | time (t : Int)
  | undef
deriving DecidableEq, Repr

/-- The `Expense` interface of `src/lib/appwrite.ts`: id, userId, amount,
category, description, date, createdAt, updatedAt. The category union type
is embedded as `String`. -/
structure Expense where
  id : String
  userId : String
  amount : ℚ
  category : String
  description : String
  date : Int
  createdAt : Int
  updatedAt : Int
deriving DecidableEq, Repr

/-- The argument of `addExpense`: `Omit<Expense, 'id' | 'createdAt' |
'updatedAt'>`. -/
structure NewExpense where
  userId : String
  amount : ℚ
  category : String
  description : String
  date : Int
deriving DecidableEq, Repr

/-- The argument of `updateExpense`: `Partial<Expense>` (the document id is
addressed separately and the remote store does not accept an id field, so
only the data fields are modelled). `none` means the key is absent from the
patch object. -/
structure ExpensePatch where
  userId : Option String
  amount : Option ℚ
  category : Option String
  description : Option String
  date : Option Int
  createdAt : Option Int
  updatedAt : Option Int
deriving DecidableEq, Repr

/-- `new Date(d).toISOString()` applied to a valid instant: parsing an
ISO timestamp and re-rendering it yields the same instant, so on the
instant embedding this is the identity. -/
def isoNormalize (t : Int) : Int := t

/-- One per-document permission grant (`Permission.read(Role.user(u))`,
etc. in `addExpense`). -/
inductive Perm where
  | read (userId : String)
  | update (userId : String)
  | delete (userId : String)
deriving DecidableEq, Repr

/-- The permission list `addExpense` attaches:
`[Permission.read(Role.user(uid)), Permission.update(Role.user(uid)),
Permission.delete(Role.user(uid))]`. -/
def ownerPermissions (userId : String) : List Perm :=
  [Perm.read userId, Perm.update userId, Perm.delete userId]

/-- The data fields forwarded by `databases.createDocument` in
`addExpense` (everything of `Expense` except the id, which the remote
store assigns). -/
structure DocData where
  userId : String
  amount : ℚ
  category : String
  description : String
  date : Int
  createdAt : Int
  updatedAt : Int
deriving DecidableEq, Repr

/-- The full `createDocument` request built by `addExpense`: the document
object literal (with `date` normalised and `createdAt`/`updatedAt` both set
to the single `now` reading) plus the owner-only permission list. -/
structure CreateRequest where
  data : DocData
  permissions : List Perm
deriving DecidableEq, Repr

/-- `addExpense` lines 23–42 of `src/lib/stores/expenses.ts`: one clock
reading `now`, the forwarded document fields, and the permission grants. -/
def createRequest (x : NewExpense) (now : Int) : CreateRequest :=
  { data :=
      { userId := x.userId
        amount := x.amount
        category := x.category
        description := x.description
        date := isoNormalize x.date
        createdAt := now
        updatedAt := now }
    permissions := ownerPermissions x.userId }

/-- The document the remote store returns for a successful
`createDocument`: the forwarded fields under a freshly assigned id. -/
def createDocument (newId : String) (req : CreateRequest) : Expense :=
  { id := newId
    userId := req.data.userId
    amount := req.data.amount
    category := req.data.category
    description := req.data.description
    date := req.data.date
    createdAt := req.data.createdAt
    updatedAt := req.data.updatedAt }

/-- Outcome of running one mutation of the expense store: the resulting
shared `expenses` list, whether the catch block rethrew the error, and
whether it logged one to the console. -/
structure RunResult where
  expenses : List Expense
  threw : Bool
  logged : Bool
deriving DecidableEq, Repr

/-- `addExpense` (lines 21–48): on success the shared list becomes
`[...current, response]`; on a rejected remote call the catch block logs
and rethrows, leaving the list untouched. `remoteOk` is the outcome of the
single `createDocument` call. -/
def addExpenseRun (current : List Expense) (x : NewExpense) (now : Int)
    (newId : String) (remoteOk : Bool) : RunResult :=
  if remoteOk then
    { expenses := current ++ [createDocument newId (createRequest x now)]
      threw := false
      logged := false }
  else
    { expenses := current, threw := true, logged := true }

/-- `deleteExpense` (lines 73–81): on success the shared list is filtered
by `item.id !== id`; on failure the catch block logs and rethrows. -/
def deleteExpenseRun (current : List Expense) (id : String)
    (remoteOk : Bool) : RunResult :=
  if remoteOk then
    { expenses := current.filter (fun item => item.id != id)
      threw := false
      logged := false }
  else
    { expenses := current, threw := true, logged := true }

/-- `fetchExpenses` (lines 9–19): on success the shared list is replaced by
the returned documents; on failure the catch block logs the error and sets
the empty list. `remote` is the outcome of the single `listDocuments` call
(`none` = rejected). Returns the new shared list and whether an error was
logged. The `userId` argument only parametrises the remote query. -/
def fetchExpensesRun (userId : String) (prior : List Expense)
    (remote : Option (List Expense)) : List Expense × Bool :=
  match remote, userId, prior with
  | some docs, _, _ => (docs, false)
  | none, _, _ => ([], true)

/-- The `updateData` object literal of `updateExpense` (lines 53–57):
`{ ...expense, date: expense.date ? new Date(expense.date).toISOString()
: undefined, updatedAt: now }`, embedded as an association list in which
later bindings override earlier ones. -/
def optEntry (k : String) (v : Option Val) : List (String × Val) :=
  match v with
  | some x => [(k, x)]
  | none => []

def buildUpdateData (p : ExpensePatch) (now : Int) : List (String × Val) :=
  optEntry "userId" (p.userId.map Val.str) ++
  optEntry "amount" (p.amount.map Val.num) ++
  optEntry "category" (p.category.map Val.str) ++
  optEntry "description" (p.description.map Val.str) ++
  optEntry "date" (p.date.map Val.time) ++
  optEntry "createdAt" (p.createdAt.map Val.time) ++
  optEntry "updatedAt" (p.updatedAt.map Val.time) ++
  [("date", match p.date with
            | some d => Val.time (isoNormalize d)
            | none => Val.undef),
   ("updatedAt", Val.time now)]

/-- Look a key up in a payload object; the last binding wins, matching JS
object-literal override semantics. `none` means the key is absent. -/
def getVal (payload : List (String × Val)) (key : String) : Option Val :=
  payload.foldl (fun acc kv => if kv.1 = key then some kv.2 else acc) none

/-- The remote store's application of one payload entry to a stored
document. An `undef` value is dropped by JSON serialisation before the
request is sent, so it leaves the field untouched. -/
def setField (e : Expense) (kv : String × Val) : Expense :=
  match kv with
  | ("userId", Val.str s) => { e with userId := s }
  | ("amount", Val.num q) => { e with amount := q }
  | ("category", Val.str s) => { e with category := s }
  | ("description", Val.str s) => { e with description := s }
  | ("date", Val.time t) => { e with date := t }
  | ("createdAt", Val.time t) => { e with createdAt := t }
  | ("updatedAt", Val.time t) => { e with updatedAt := t }
  | _ => e

def applyPayload (e : Expense) (payload : List (String × Val)) : Expense :=
  payload.foldl setField e

/-- The remote `updateDocument` semantics for the payload `updateExpense`
builds: the stored document with every defined payload field rewritten.
The response `updateExpense` receives is this document. -/
def updateDocument (stored : Expense) (p : ExpensePatch) (now : Int) :
    Expense :=
  applyPayload stored (buildUpdateData p now)

/-- `updateExpense` (lines 50–71): on success the shared list replaces
every item whose id matches by the response computed by the remote store
from its stored copy of the document; on failure the catch block logs and
rethrows, leaving the list untouched. -/
def updateExpenseRun (current : List Expense) (id : String)
    (stored : Expense) (p : ExpensePatch) (now : Int) (remoteOk : Bool) :
    RunResult :=
  if remoteOk then
    { expenses := current.map (fun item =>
        if item.id = id then updateDocument stored p now else item)
      threw := false
      logged := false }
  else
    { expenses := current, threw := true, logged := true }

/-- The remote auth service's user record (`Models.User`): identifier,
display name, email. -/
structure User where
  id : String
  name : String
  email : String
deriving DecidableEq, Repr

/-- What one run of the session-restore operation produces: the value
published into the shared `user` store, the value returned to the caller
(`none` = JS `undefined`/`null`), and whether the error escaped. -/
structure InitAuthResult where
  published : Option User
  returned : Option User
  threw : Bool
deriving DecidableEq, Repr

/-- `initAuth` of `src/lib/stores/auth.ts` (lines 8–16): on a successful
`account.get()` it runs `user.set(session)` and then falls off the end of
the function body, so the promise resolves to `undefined` (no `return`
statement); on a rejected `account.get()` the catch block runs
`user.set(null)` and likewise returns `undefined`. Nothing is rethrown.
`remote` is the outcome of the single `account.get()` call. -/
def initAuth (remote : Option User) : InitAuthResult :=
  match remote with
  | some u => { published := some u, returned := none, threw := false }
  | none => { published := none, returned := none, threw := false }

/-- `initAuth` of the draft `unnamed/part_002` (lines 6–15): identical
except that both branches return the value they published
(`return currentUser` / `return null`). -/
def initAuthDraft (remote : Option User) : InitAuthResult :=
  match remote with
  | some u => { published := some u, returned := some u, threw := false }
  | none => { published := none, returned := none, threw := false }

/-- State left behind by one run of the auth screen's `handleSubmit`
(`src/routes/auth/+page.svelte`, lines 14–36): the shared `user` store,
the local `error` message, the local `loading` flag, and whether
`goto('/')` was invoked during the run. -/
structure SubmitResult where
  user : Option User
  error : Option String
  loading : Bool
  navigated : Bool
deriving DecidableEq, Repr

/-- The auth screen's `handleSubmit`. `user0` is the shared user store
before the run. The remote-call outcomes are explicit: `createOk` for
`account.create` (register mode only), `sessionOk` for
`account.createEmailPasswordSession`, `got` for the final `account.get()`
(`none` = rejected). The catch block sets the mode-dependent message
(`'Invalid credentials'` in login mode); `finally` clears `loading`. -/
def handleSubmitAuth (user0 : Option User) (isLogin : Bool)
    (createOk : Bool) (sessionOk : Bool) (got : Option User) :
    SubmitResult :=
  if isLogin then
    if sessionOk then
      match got with
      | some u =>
          { user := some u, error := none, loading := false,
            navigated := true }
      | none =>
          { user := user0, error := some "Invalid credentials",
            loading := false, navigated := false }
    else
      { user := user0, error := some "Invalid credentials",
        loading := false, navigated := false }
  else
    if createOk then
      if sessionOk then
        match got with
        | some u =>
            { user := some u, error := none, loading := false,
              navigated := true }
        | none =>
            { user := user0, error := some "Failed to create account",
              loading := false, navigated := false }
      else
        { user := user0, error := some "Failed to create account",
          loading := false, navigated := false }
    else
      { user := user0, error := some "Failed to create account",
        loading := false, navigated := false }

/-- `expenses.reduce((sum, exp) => sum + parseFloat(exp.amount), 0)` of
`calculateStats`. -/
def sumAmounts (l : List Expense) : ℚ :=
  l.foldl (fun s e => s + e.amount) 0

/-- The derived statistics record. -/
structure Stats where
  total : ℚ
  thisMonth : ℚ
  thisWeek : ℚ
deriving DecidableEq, Repr

/-- `calculateStats` of `src/routes/+page.svelte` (lines 75–87) and
`+layout.svelte`: `monthStart` and `weekStart` are the two boundary
instants the function derives from the platform clock
(`new Date(year, month, 1)` and the day-of-week subtraction); the records
are filtered by their creation instant (`new Date(exp.$createdAt) >=
boundary`) and summed. -/
def calculateStats (l : List Expense) (monthStart weekStart : Int) :
    Stats :=
  { total := sumAmounts l
    thisMonth := sumAmounts (l.filter (fun e => monthStart ≤ e.createdAt))
    thisWeek := sumAmounts (l.filter (fun e => weekStart ≤ e.createdAt)) }

/-- A concrete user for closed evaluations. -/
def sampleUser : User :=
  { id := "u1", name := "Ada", email := "ada@example.com" }

theorem applyPayload_nil (e : Expense) : applyPayload e [] = e := rfl

theorem applyPayload_cons (e : Expense) (kv : String × Val)
    (l : List (String × Val)) :
    applyPayload e (kv :: l) = applyPayload (setField e kv) l := rfl

theorem setField_userId (e : Expense) (s : String) :
    setField e ("userId", Val.str s) = { e with userId := s } := rfl

theorem setField_amount (e : Expense) (q : ℚ) :
    setField e ("amount", Val.num q) = { e with amount := q } := rfl

theorem setField_category (e : Expense) (s : String) :
    setField e ("category", Val.str s) = { e with category := s } := rfl

theorem setField_description (e : Expense) (s : String) :
    setField e ("description", Val.str s) = { e with description := s } :=
  rfl

theorem setField_date (e : Expense) (t : Int) :
    setField e ("date", Val.time t) = { e with date := t } := rfl

theorem setField_date_undef (e : Expense) :
    setField e ("date", Val.undef) = e := rfl

theorem setField_createdAt (e : Expense) (t : Int) :
    setField e ("createdAt", Val.time t) = { e with createdAt := t } := rfl

theorem setField_updatedAt (e : Expense) (t : Int) :
    setField e ("updatedAt", Val.time t) = { e with updatedAt := t } := rfl

/-- Closed form of the remote update semantics: every defined patch field
overwrites the stored one, the explicit `date:` entry re-normalises or (as
`undefined`) is dropped, the trailing `updatedAt: now` entry always wins,
and the id is untouched. -/
theorem updateDocument_eq (e : Expense) (p : ExpensePatch) (now : Int) :
    updateDocument e p now =
      { id := e.id
        userId := p.userId.getD e.userId
        amount := p.amount.getD e.amount
        category := p.category.getD e.category
        description := p.description.getD e.description
        date := (p.date.map isoNormalize).getD e.date
        createdAt := p.createdAt.getD e.createdAt
        updatedAt := now } := by
  rcases p with ⟨pu, pa, pc, pd, pt, pcr, pup⟩
  cases pu <;> cases pa <;> cases pc <;> cases pd <;> cases pt <;>
    cases pcr <;> cases pup <;>
    simp only [updateDocument, buildUpdateData, optEntry, Option.map,
      List.nil_append, List.cons_append, List.append_nil,
      applyPayload_cons, applyPayload_nil, setField_userId, setField_amount,
      setField_category, setField_description, setField_date,
      setField_date_undef, setField_createdAt, setField_updatedAt,
      Option.getD]

/-- C2: when the remote call inside `addExpense`, `updateExpense` or
`deleteExpense` is rejected, the shared expense list is left exactly as it
was, the error is logged, and it is rethrown to the caller — no partial
change is applied. -/
theorem mutation_failure_preserves_list_and_rethrows
    (current : List Expense) (x : NewExpense) (now : Int) (newId : String)
    (uid : String) (stored : Expense) (p : ExpensePatch) (did : String) :
    addExpenseRun current x now newId false
        = { expenses := current, threw := true, logged := true }
    ∧ updateExpenseRun current uid stored p now false
        = { expenses := current, threw := true, logged := true }
    ∧ deleteExpenseRun current did false
        = { expenses := current, threw := true, logged := true } :=
  ⟨rfl, rfl, rfl⟩

/-- C4: when the `listDocuments` call inside `fetchExpenses` is rejected,
the shared expense list is set to the empty list (never a stale or partial
one) and an error is logged; the single-call structure performs no
retry. -/
theorem fetch_failure_empties_list_and_logs (userId : String)
    (prior : List Expense) :
    fetchExpensesRun userId prior none = ([], true) := rfl

/-- C6: `addExpense` stamps both `createdAt` and `updatedAt` (to the same
clock reading `now`) onto the forwarded document, attaches owner-only
read/update/delete permission grants for the expense's owner, and on
success appends exactly the returned record to the end of the shared list,
leaving all existing records unchanged. -/
theorem addExpense_stamps_permissions_appends (current : List Expense)
    (x : NewExpense) (now : Int) (newId : String) :
    (createRequest x now).data.createdAt = now
    ∧ (createRequest x now).data.updatedAt = now
    ∧ (createRequest x now).permissions
        = [Perm.read x.userId, Perm.update x.userId, Perm.delete x.userId]
    ∧ (addExpenseRun current x now newId true).expenses
        = current ++ [createDocument newId (createRequest x now)]
    ∧ (addExpenseRun current x now newId true).threw = false :=
  ⟨rfl, rfl, rfl, rfl, rfl⟩

/-- C7: after a successful `deleteExpense id`, a record is in the shared
list exactly when it was there before and its identifier differs from
`id`: no record with identifier `id` remains, and every other record is
still present unchanged. -/
theorem deleteExpense_removes_only_matching (current : List Expense)
    (id : String) (e : Expense) :
    e ∈ (deleteExpenseRun current id true).expenses ↔
      e ∈ current ∧ e.id ≠ id := by
  simp [deleteExpenseRun, List.mem_filter]

/-- C9: the document `addExpense` forwards to the remote store has its
creation timestamp exactly equal to its update timestamp; both come from
the single `now` reading. -/
theorem createRequest_createdAt_eq_updatedAt (x : NewExpense) (now : Int) :
    (createRequest x now).data.createdAt
      = (createRequest x now).data.updatedAt := rfl

/-- C10: the payload `updateExpense` forwards always contains a `date`
key: the ISO normalisation of the patch's date when one is provided, and
the JS value `undefined` (key present, not absent) when the patch omits
the date. -/
theorem updateData_always_has_date_key (p : ExpensePatch) (now : Int) :
    getVal (buildUpdateData p now) "date" =
      some (match p.date with
            | some d => Val.time (isoNormalize d)
            | none => Val.undef) := by
  rcases p with ⟨pu, pa, pc, pd, pt, pcr, pup⟩
  cases pu <;> cases pa <;> cases pc <;> cases pd <;> cases pt <;>
    cases pcr <;> cases pup <;>
    simp [getVal, buildUpdateData, optEntry]

/-- C8: a login submission whose credential exchange
(`createEmailPasswordSession`) is rejected leaves the shared user state
empty, shows exactly the message "Invalid credentials", and performs no
navigation away from the auth screen. -/
theorem login_failure_keeps_user_empty_shows_message (createOk : Bool)
    (got : Option User) :
    handleSubmitAuth none true createOk false got
      = { user := none, error := some "Invalid credentials",
          loading := false, navigated := false } := rfl

/-- C5: evaluated at a successful remote session query, the `initAuth` of
`src/lib/stores/auth.ts` publishes the user into the shared state and does
not throw, but returns `none` (its body has no `return` statement, so the
promise resolves to `undefined`) — whereas the claim, the `+layout.svelte`
caller (`const currentUser = await initAuth()`), and the sibling draft
`unnamed/part_002` all expect the user to be returned. -/
theorem initAuth_success_publishes_but_returns_none :
    initAuth (some sampleUser)
      = { published := some sampleUser, returned := none, threw := false }
    ∧ initAuthDraft (some sampleUser)
      = { published := some sampleUser, returned := some sampleUser,
          threw := false } :=
  ⟨rfl, rfl⟩

/-- A concrete expense record for closed evaluations. -/
def sampleExpense : Expense :=
  { id := "e1", userId := "u1", amount := 10, category := "food",
    description := "lunch", date := 100, createdAt := 40, updatedAt := 40 }

/-- A second concrete expense record (older creation instant). -/
def sampleExpense2 : Expense :=
  { id := "e2", userId := "u1", amount := 5, category := "transport",
    description := "bus", date := 20, createdAt := 20, updatedAt := 20 }

/-- A concrete patch that only rewrites the amount. -/
def samplePatch : ExpensePatch :=
  { userId := none, amount := some 50, category := none,
    description := none, date := none, createdAt := none,
    updatedAt := none }

/-- C1 (counterexample): the update operation does not leave the creation
timestamp untouched for every patch — `updateExpense` spreads the whole
patch into the payload, so a patch carrying a `createdAt` field rewrites
the record's creation timestamp. -/
theorem update_changes_createdAt_at_concrete_input :
    (updateDocument sampleExpense
        { userId := none, amount := none, category := none,
          description := none, date := none, createdAt := some 7,
          updatedAt := none } 60).createdAt
      ≠ sampleExpense.createdAt := by
  decide

/-- C1 (amended): for every patch that does not carry a `createdAt` field,
and a clock reading at least the record's previous update timestamp,
`updateExpense` changes only the patched fields — every field the patch
omits keeps its previous value, the update timestamp is advanced to a
value ≥ the previous one, the creation timestamp is unchanged — and every
record of the shared list with a different identifier is still present
after the splice. -/
theorem update_frame_of_patch_without_createdAt
    (current : List Expense) (e : Expense) (p : ExpensePatch) (now : Int)
    (hc : p.createdAt = none) (hu : e.updatedAt ≤ now) :
    (updateDocument e p now).createdAt = e.createdAt
    ∧ e.updatedAt ≤ (updateDocument e p now).updatedAt
    ∧ (updateDocument e p now).id = e.id
    ∧ (p.userId = none → (updateDocument e p now).userId = e.userId)
    ∧ (p.amount = none → (updateDocument e p now).amount = e.amount)
    ∧ (p.category = none →
        (updateDocument e p now).category = e.category)
    ∧ (p.description = none →
        (updateDocument e p now).description = e.description)
    ∧ (p.date = none → (updateDocument e p now).date = e.date)
    ∧ (∀ x ∈ current, x.id ≠ e.id →
        x ∈ (updateExpenseRun current e.id e p now true).expenses) := by
  refine ⟨?_, ?_, ?_, ?_, ?_, ?_, ?_, ?_, ?_⟩
  · simp [updateDocument_eq, hc]
  · simpa [updateDocument_eq] using hu
  · simp [updateDocument_eq]
  · intro h; simp [updateDocument_eq, h]
  · intro h; simp [updateDocument_eq, h]
  · intro h; simp [updateDocument_eq, h]
  · intro h; simp [updateDocument_eq, h]
  · intro h; simp [updateDocument_eq, h]
  · intro x hx hne
    exact List.mem_map.mpr ⟨x, hx, by simp [hne]⟩

/-- C1 (witness): the amended frame property evaluated at a concrete
record, an amount-only patch and the clock reading 60. -/
theorem update_frame_witness :
    (updateDocument sampleExpense samplePatch 60).createdAt
        = sampleExpense.createdAt
    ∧ sampleExpense.updatedAt
        ≤ (updateDocument sampleExpense samplePatch 60).updatedAt
    ∧ (updateDocument sampleExpense samplePatch 60).id = sampleExpense.id
    ∧ (samplePatch.userId = none →
        (updateDocument sampleExpense samplePatch 60).userId
          = sampleExpense.userId)
    ∧ (samplePatch.amount = none →
        (updateDocument sampleExpense samplePatch 60).amount
          = sampleExpense.amount)
    ∧ (samplePatch.category = none →
        (updateDocument sampleExpense samplePatch 60).category
          = sampleExpense.category)
    ∧ (samplePatch.description = none →
        (updateDocument sampleExpense samplePatch 60).description
          = sampleExpense.description)
    ∧ (samplePatch.date = none →
        (updateDocument sampleExpense samplePatch 60).date
          = sampleExpense.date)
    ∧ (∀ x ∈ [sampleExpense, sampleExpense2], x.id ≠ sampleExpense.id →
        x ∈ (updateExpenseRun [sampleExpense, sampleExpense2]
              sampleExpense.id sampleExpense samplePatch 60
              true).expenses) :=
  update_frame_of_patch_without_createdAt
    [sampleExpense, sampleExpense2] sampleExpense samplePatch 60
    rfl (by decide)

theorem sumAmounts_foldl (l : List Expense) (s : ℚ) :
    l.foldl (fun a e => a + e.amount) s = s + sumAmounts l := by
  induction l generalizing s with
  | nil => simp [sumAmounts]
  | cons x xs ih =>
      simp only [sumAmounts, List.foldl_cons]
      rw [ih (s + x.amount), ih (0 + x.amount)]
      ring

theorem sumAmounts_cons (x : Expense) (xs : List Expense) :
    sumAmounts (x :: xs) = x.amount + sumAmounts xs := by
  have h := sumAmounts_foldl xs (0 + x.amount)
  simp only [sumAmounts] at h ⊢
  rw [List.foldl_cons, h]
  ring

/-- Splitting the summed list at the month boundary: the grand total is
the sum over records created at or after the boundary plus the sum over
records created strictly before it. -/
theorem sumAmounts_filter_partition (l : List Expense) (ms : Int) :
    sumAmounts l
      = sumAmounts (l.filter (fun e => ms ≤ e.createdAt))
        + sumAmounts (l.filter (fun e => e.createdAt < ms)) := by
  induction l with
  | nil => simp [sumAmounts]
  | cons x xs ih =>
      by_cases h : ms ≤ x.createdAt
      · have h' : ¬ x.createdAt < ms := not_lt.mpr h
        simp [List.filter_cons, h, h', sumAmounts_cons, ih]
        ring
      · have h' : x.createdAt < ms := not_le.mp h
        simp [List.filter_cons, h, h', sumAmounts_cons, ih]
        ring

/-- C3: for every fetched list and every pair of boundary instants the
clock yields, the derived statistics satisfy: the total equals the
this-month sum plus the sum over records created strictly before the month
boundary; and every record counted in the this-week sum whose creation
instant lies within the current month (at or after the month boundary) is
also counted in the this-month sum. -/
theorem stats_total_partition_and_week_in_month (l : List Expense)
    (monthStart weekStart : Int) :
    (calculateStats l monthStart weekStart).total
      = (calculateStats l monthStart weekStart).thisMonth
        + sumAmounts (l.filter (fun e => e.createdAt < monthStart))
    ∧ ∀ e ∈ l.filter (fun e => weekStart ≤ e.createdAt),
        monthStart ≤ e.createdAt →
        e ∈ l.filter (fun e => monthStart ≤ e.createdAt) := by
  constructor
  · simpa [calculateStats] using sumAmounts_filter_partition l monthStart
  · intro e he hm
    rw [List.mem_filter] at he ⊢
    exact ⟨he.1, by simpa using hm⟩

/-- C3 (witness): the statistics property evaluated on a concrete
two-record list with month boundary 30 and week boundary 10. -/
theorem stats_partition_witness :
    (calculateStats [sampleExpense, sampleExpense2] 30 10).total
      = (calculateStats [sampleExpense, sampleExpense2] 30 10).thisMonth
        + sumAmounts ([sampleExpense, sampleExpense2].filter
            (fun e => e.createdAt < 30))
    ∧ sampleExpense ∈ [sampleExpense, sampleExpense2].filter
        (fun e => (30 : Int) ≤ e.createdAt) :=
  ⟨(stats_total_partition_and_week_in_month
      [sampleExpense, sampleExpense2] 30 10).1,
   (stats_total_partition_and_week_in_month
      [sampleExpense, sampleExpense2] 30 10).2
     sampleExpense (by decide) (by decide)⟩
